import Mathlib

/-!
Verification development for the schema registry core (graphql-hive).

The definitions below are a shallow embedding of the TypeScript sources:
* `packages/services/api/src/modules/schema/providers/registry-checks.ts`
* the composite project model (`CompositeModel.check` / `publish`) and its
  `shared.ts` companion (conclusion types, `isContractChecksSuccessful`,
  `buildSchemaCheckFailureState`),
* `packages/services/api/src/modules/schema/providers/schema-publisher.ts`
  (context-id resolution, publish persistence, delete flow),
* the purge task of `packages/services/server/src/index.ts`.

External collaborators (orchestrator, inspector, policy engine, JSON / hashing
helpers) are passed in as explicit oracle values, mirroring how the source
receives them through dependency injection.  Fallible TypeScript code (throw)
is modelled with `Except String`.  JavaScript truthiness on nullable strings
and numbers is modelled explicitly.
-/

namespace Hive

/-- JS truthiness of a `string | null` value: `null` and `""` are falsy. -/
def strTruthy : Option String → Bool
  | none => false
  | some s => s ≠ ""

/-- JS truthiness of a `number | null | undefined` value: absence and `0` are falsy. -/
def numTruthy : Option Nat → Bool
  | none => false
  | some n => n ≠ 0

/-- Error source of a composition error (`source ∈ {graphql, composition}`). -/
inductive ErrSource where
  | graphql
  | composition
deriving DecidableEq, Repr

/-- `CompositionFailureError` — `{ message, source }`. -/
structure CompositionError where
  message : String
  source : ErrSource
deriving DecidableEq, Repr

/-- `isGraphQLValidationError` of registry-checks.ts (negation of source `composition`). -/
def isGraphQLValidationError (e : CompositionError) : Bool :=
  e.source ≠ ErrSource.composition

/-- `isCompositionValidationError` of registry-checks.ts. -/
def isCompositionValidationError (e : CompositionError) : Bool :=
  e.source = ErrSource.composition

/-- `CriticalityLevel` of graphql-inspector. -/
inductive Criticality where
  | breaking
  | dangerous
  | safe
deriving DecidableEq, Repr

/-- Meta payload of a `REGISTRY_SERVICE_URL_CHANGED` change. -/
structure UrlChangeMeta where
  serviceName : String
  oldUrl : Option String
  newUrl : Option String
deriving DecidableEq, Repr

/-- `SchemaChangeType` — a classified schema change.  The approval fields carry
the approver metadata that a stored approval snapshot preserves. -/
structure SchemaChange where
  id : String
  type : String
  criticality : Criticality
  isSafeBasedOnUsage : Bool
  message : String := ""
  path : Option String := none
  meta : Option UrlChangeMeta := none
  approvedBy : Option String := none
deriving DecidableEq, Repr

/-- `HiveSchemaChangeModel.parse({type, meta, isSafeBasedOnUsage})` applied to a
URL-change record: builds a change value with a deterministic id derived from
`(type, meta)` and `Safe` severity. -/
def hiveSchemaChangeModelParse (type : String) (meta : UrlChangeMeta)
    (isSafeBasedOnUsage : Bool) : SchemaChange :=
  { id := type ++ ":" ++ meta.serviceName ++ ":" ++ (meta.oldUrl.getD "null")
      ++ ":" ++ (meta.newUrl.getD "null")
    type := type
    criticality := Criticality.safe
    isSafeBasedOnUsage := isSafeBasedOnUsage
    meta := some meta }

/-- A pushed composite schema entry (`service_name`, `service_url`, ...). -/
structure SubgraphDefinition where
  service_name : String
  service_url : Option String
deriving DecidableEq, Repr

/-! ### detectUrlChanges (registry-checks.ts, bottom of file) -/

/-- JS `Map` built from a list of `(service_name ↦ entry)` pairs: later entries
overwrite earlier ones, so a lookup returns the *last* entry with the name. -/
def mapGetLast (l : List SubgraphDefinition) (name : String) : Option SubgraphDefinition :=
  l.reverse.find? (fun s => s.service_name = name)

/-- One step of the `for (const schema of subgraphsAfter)` loop of
`detectUrlChanges`: the emitted URL-change record for `schema`, if any;
`Except.error` models the `throw new Error("This shouldn't happen.")` branch. -/
def detectUrlChangeStep (nameToCompositeSchemaMap : List SubgraphDefinition)
    (schema : SubgraphDefinition) : Except String (Option UrlChangeMeta) :=
  match mapGetLast nameToCompositeSchemaMap schema.service_name with
  | none => Except.ok none
  | some before =>
    if before.service_url ≠ schema.service_url then
      if strTruthy before.service_url ∧ strTruthy schema.service_url then
        Except.ok (some ⟨schema.service_name, before.service_url, schema.service_url⟩)
      else if strTruthy before.service_url ∧ schema.service_url = none then
        Except.ok (some ⟨schema.service_name, before.service_url, none⟩)
      else if before.service_url = none ∧ strTruthy schema.service_url then
        Except.ok (some ⟨schema.service_name, none, schema.service_url⟩)
      else
        Except.error "This shouldn't happen."
    else
      Except.ok none

/-- `detectUrlChanges(subgraphsBefore, subgraphsAfter)`.  The duplicated
early-return on `subgraphsBefore.length === 0` of the source is kept. -/
def detectUrlChanges (subgraphsBefore subgraphsAfter : List SubgraphDefinition) :
    Except String (List SchemaChange) :=
  if subgraphsBefore.length = 0 then Except.ok []
  else if subgraphsBefore.length = 0 then Except.ok []
  else do
    let metas ← subgraphsAfter.foldlM
      (fun (acc : List UrlChangeMeta) schema => do
        match (← detectUrlChangeStep subgraphsBefore schema) with
        | some m => pure (acc ++ [m])
        | none => pure acc) []
    pure (metas.map (fun m => hiveSchemaChangeModelParse "REGISTRY_SERVICE_URL_CHANGED" m false))

/-! ### Check-result sum types (registry-checks.ts) -/

/-- Generic `CheckResult<C, F>`: `completed{result} | failed{reason} | skipped`. -/
inductive CheckResult (C F : Type) where
  | completed (result : C)
  | failed (reason : F)
  | skipped
deriving DecidableEq, Repr

/-- `status === 'failed'` on a `CheckResult`. -/
def CheckResult.isFailed {C F : Type} : CheckResult C F → Bool
  | .failed _ => true
  | _ => false

/-- `status === 'completed'` on a `CheckResult`. -/
def CheckResult.isCompleted {C F : Type} : CheckResult C F → Bool
  | .completed _ => true
  | _ => false

/-- Result of the `checksum` primitive (its status is always `completed`). -/
inductive ChecksumResult where
  | initial
  | modified
  | unchanged
deriving DecidableEq, Repr

/-- `ContractCompositionResult`: per-contract composition outcome.  The failure
reason keeps `fullSchemaSdl` because Federation 1 may return SDL together with
validation errors. -/
inductive ContractCompositionResult where
  | completed (fullSchemaSdl : String) (supergraph : Option String)
  | failed (errors : List CompositionError) (fullSchemaSdl : Option String)
deriving DecidableEq, Repr

/-- `status === 'completed'` on a `ContractCompositionResult`. -/
def ContractCompositionResult.isCompleted : ContractCompositionResult → Bool
  | .completed _ _ => true
  | .failed _ _ => false

/-- Outcome of `RegistryChecks.composition`. -/
inductive CompositionCheckResult where
  | completed (fullSchemaSdl : String) (supergraph : Option String)
      (tags : Option (List String)) (contracts : Option (List ContractCompositionResult))
  | failed (errors : List CompositionError) (fullSchemaSdl : Option String)
deriving DecidableEq, Repr

namespace CompositionCheckResult

/-- `status === 'failed'`. -/
def isFailed : CompositionCheckResult → Bool
  | .failed _ _ => true
  | _ => false

/-- `status === 'completed'`. -/
def isCompleted : CompositionCheckResult → Bool
  | .completed _ _ _ _ => true
  | _ => false

/-- `reason.errorsBySource.graphql` (empty when the check completed). -/
def graphqlErrors : CompositionCheckResult → List CompositionError
  | .failed errors _ => errors.filter isGraphQLValidationError
  | _ => []

/-- `reason?.errors ?? null`. -/
def reasonErrors : CompositionCheckResult → Option (List CompositionError)
  | .failed errors _ => some errors
  | _ => none

/-- `result?.fullSchemaSdl ?? null`. -/
def resultFullSchemaSdl : CompositionCheckResult → Option String
  | .completed sdl _ _ _ => some sdl
  | _ => none

/-- `result?.supergraph ?? null`. -/
def resultSupergraph : CompositionCheckResult → Option String
  | .completed _ supergraph _ _ => supergraph
  | _ => none

/-- `result?.tags ?? null`. -/
def resultTags : CompositionCheckResult → Option (List String)
  | .completed _ _ tags _ => tags
  | _ => none

end CompositionCheckResult

/-- Breaking/safe/all change lists as stored in a diff result or reason. -/
structure SchemaChangesRecord where
  breaking : Option (List SchemaChange)
  safe : Option (List SchemaChange)
  all : Option (List SchemaChange)
deriving DecidableEq, Repr

/-- `SchemaDiffResult = SchemaDiffFailure | SchemaDiffSuccess | SchemaDiffSkip`. -/
inductive SchemaDiffResult where
  | completed (result : SchemaChangesRecord)
  | failed (reason : SchemaChangesRecord)
  | skipped
deriving DecidableEq, Repr

namespace SchemaDiffResult

/-- `status === 'failed'`. -/
def isFailed : SchemaDiffResult → Bool
  | .failed _ => true
  | _ => false

/-- `result ?? null` (undefined on failure/skip). -/
def result? : SchemaDiffResult → Option SchemaChangesRecord
  | .completed r => some r
  | _ => none

/-- `reason ?? null` (undefined on success/skip). -/
def reason? : SchemaDiffResult → Option SchemaChangesRecord
  | .failed r => some r
  | _ => none

/-- `result?.all ?? reason?.all ?? null`. -/
def changesAll (d : SchemaDiffResult) : Option (List SchemaChange) :=
  ((d.result?.bind SchemaChangesRecord.all)).or ((d.reason?.bind SchemaChangesRecord.all))

end SchemaDiffResult

/-- A schema-policy warning/error record. -/
structure SchemaCheckWarning where
  message : String
  ruleId : String
deriving DecidableEq, Repr

/-- Outcome of `RegistryChecks.policyCheck`. -/
inductive PolicyCheckResult where
  | completed (warnings : Option (List SchemaCheckWarning))
  | failed (errors : List SchemaCheckWarning) (warnings : Option (List SchemaCheckWarning))
  | skipped
deriving DecidableEq, Repr

/-- `status === 'failed'` on a policy check outcome. -/
def PolicyCheckResult.isFailed : PolicyCheckResult → Bool
  | .failed _ _ => true
  | _ => false

/-- Result payload of a completed `serviceUrl` check: `modified` vs `unchanged`. -/
inductive UrlCheckOk where
  | modified (before : Option String) (after : String) (message : String)
  | unchanged
deriving DecidableEq, Repr

/-- `serviceUrlCheck.status === 'completed' && serviceUrlCheck.result.status === 'modified'`. -/
def urlCheckModified : CheckResult UrlCheckOk String → Bool
  | .completed (.modified _ _ _) => true
  | _ => false

/-- `serviceUrlCheck.result.message!` for a modified completed url check. -/
def urlCheckMessage : CheckResult UrlCheckOk String → Option String
  | .completed (.modified _ _ msg) => some msg
  | _ => none

/-- Result payload of a completed `metadata` check. -/
inductive MetaStatus where
  | modified
  | unchanged
deriving DecidableEq, Repr

/-- `metadataCheck?.status === 'completed' && metadataCheck.result.status === 'modified'`. -/
def metaCheckModified : CheckResult MetaStatus String → Bool
  | .completed .modified => true
  | _ => false

/-! ### RegistryChecks primitives -/

/-- The oracles the registry checks receive from their collaborators:
the schema helper's checksum, graphql-js parsing, the inspector diff. -/
structure Env where
  createChecksumFromSchemas : List SubgraphDefinition → String
  schemaParses : String → Bool
  inspectorDiff : String → String → List SchemaChange

/-- The slice of the latest version a check needs. -/
structure LatestVersion where
  isComposable : Bool
  sdl : Option String
  schemas : List SubgraphDefinition
deriving DecidableEq, Repr

/-- `RegistryChecks.checksum({schemas, latestVersion})`. -/
def RegistryChecks.checksum (env : Env) (schemas : List SubgraphDefinition)
    (latestVersion : Option LatestVersion) : ChecksumResult :=
  match latestVersion with
  | none => ChecksumResult.initial
  | some latest =>
    if latest.schemas.length = 0 then ChecksumResult.initial
    else if env.createChecksumFromSchemas schemas ≠ env.createChecksumFromSchemas latest.schemas then
      ChecksumResult.modified
    else
      ChecksumResult.unchanged

/-- Raw per-contract result of `orchestrator.composeAndValidate`. -/
structure ContractResultRaw where
  id : String
  sdl : Option String
  supergraph : Option String
  errors : Option (List CompositionError)
deriving DecidableEq, Repr

/-- Raw result of `orchestrator.composeAndValidate`. -/
structure CompositionResultRaw where
  sdl : Option String
  supergraph : Option String
  tags : Option (List String)
  errors : Option (List CompositionError)
  contracts : Option (List ContractResultRaw)
deriving DecidableEq, Repr

/-- Per-contract mapping inside `RegistryChecks.composition`; throws
`'No SDL, but no errors either'` when a contract has neither. -/
def contractCompositionOf (contract : ContractResultRaw) :
    Except String ContractCompositionResult :=
  match contract.errors with
  | some errs =>
    if errs.length ≠ 0 then
      Except.ok (ContractCompositionResult.failed errs contract.sdl)
    else
      match contract.sdl with
      | none => Except.error "No SDL, but no errors either"
      | some sdl => Except.ok (ContractCompositionResult.completed sdl contract.supergraph)
  | none =>
    match contract.sdl with
    | none => Except.error "No SDL, but no errors either"
    | some sdl => Except.ok (ContractCompositionResult.completed sdl contract.supergraph)

/-- `RegistryChecks.composition`, applied to the orchestrator's raw result.
A non-empty error list makes the check fail while keeping `result.sdl` in the
failure reason (the Federation 1 legacy case). -/
def RegistryChecks.composition (result : CompositionResultRaw) :
    Except String CompositionCheckResult :=
  let validationErrors := result.errors
  if validationErrors.getD [] ≠ [] then
    Except.ok (CompositionCheckResult.failed (validationErrors.getD []) result.sdl)
  else
    match result.sdl with
    | none => Except.error "No SDL, but no errors either"
    | some sdl => do
      let contracts ← match result.contracts with
        | none => pure none
        | some cs => some <$> cs.mapM contractCompositionOf
      pure (CompositionCheckResult.completed sdl result.supergraph result.tags contracts)

/-! ### RegistryChecks.diff and its classification loop -/

/-- `approvedChanges.get(id)` on the JS `Map` (later `set`s overwrite earlier). -/
def approvedGet (approvedChanges : Option (List (String × SchemaChange))) (id : String) :
    Option SchemaChange :=
  match approvedChanges with
  | none => none
  | some entries => (entries.reverse.find? (fun p => p.1 = id)).map Prod.snd

/-- The fixed federation-internal type names filtered out of diffs. -/
def federationTypes : List String :=
  ["join__FieldSet", "join__Graph", "link__Import", "link__Purpose"]

/-- The fixed federation-internal directive tokens filtered out of diffs. -/
def federationDirectives : List String :=
  ["@join__enumValue", "@join__field", "@join__graph", "@join__implements", "@join__type",
   "@join__unionMember", "@link", "@federation__inaccessible", "@inaccessible", "@tag",
   "@federation__tag"]

/-- `isFederationRelatedChange`: the change's path names a federation-internal
type or directive. -/
def isFederationRelatedChange (change : SchemaChange) : Bool :=
  strTruthy change.path ∧
    (change.path.getD "" ∈ federationTypes ∨ change.path.getD "" ∈ federationDirectives)

/-- One iteration of the `for (const change of inspectorChanges)` classification
loop of `RegistryChecks.diff`: accumulator is `(isFailure, safeChanges,
breakingChanges)`.  An approved breaking change is replaced by the stored
approval snapshot and does not flip `isFailure`.  The usage-safe branch of the
source has no `continue`, so a usage-safe change is pushed to
`breakingChanges` and then falls through to the trailing `safeChanges.push`. -/
def diffClassifyStep (approvedChanges : Option (List (String × SchemaChange)))
    (acc : Bool × List SchemaChange × List SchemaChange) (change : SchemaChange) :
    Bool × List SchemaChange × List SchemaChange :=
  let (isFailure, safeChanges, breakingChanges) := acc
  if change.isSafeBasedOnUsage then
    (isFailure, safeChanges ++ [change], breakingChanges ++ [change])
  else if change.criticality = Criticality.breaking then
    match approvedGet approvedChanges change.id with
    | some approvedChange => (isFailure, safeChanges, breakingChanges ++ [approvedChange])
    | none => (true, safeChanges, breakingChanges ++ [change])
  else
    (isFailure, safeChanges ++ [change], breakingChanges)

/-- Packaging of the classified changes into a `SchemaDiffResult`, including the
`get all()` accessors of the source. -/
def diffFinalize (isFailure : Bool) (safeChanges breakingChanges : List SchemaChange) :
    SchemaDiffResult :=
  let allChanges : Option (List SchemaChange) :=
    if breakingChanges.length ≠ 0 ∨ safeChanges.length ≠ 0 then
      some (breakingChanges ++ safeChanges)
    else none
  if isFailure then
    SchemaDiffResult.failed
      { breaking := some breakingChanges
        safe := if safeChanges.length ≠ 0 then some safeChanges else none
        all := allChanges }
  else
    SchemaDiffResult.completed
      { breaking := if breakingChanges.length ≠ 0 then some breakingChanges else none
        safe := if safeChanges.length ≠ 0 then some safeChanges else none
        all := allChanges }

/-- Arguments of `RegistryChecks.diff` (the usage selector is part of the
inspector oracle). -/
structure DiffArgs where
  existingSdl : Option String
  incomingSdl : Option String
  /-- `false`, or the before/after subgraph sets. -/
  includeUrlChanges : Option (List SubgraphDefinition × List SubgraphDefinition)
  filterOutFederationChanges : Bool
  approvedChanges : Option (List (String × SchemaChange))

/-- The list of detected changes the classification loop runs over: inspector
changes, plus URL changes when requested, with federation bookkeeping filtered
out when requested. -/
def RegistryChecks.effectiveChanges (env : Env) (args : DiffArgs)
    (existingSdl incomingSdl : String) : Except String (List SchemaChange) := do
  let inspectorChanges := env.inspectorDiff existingSdl incomingSdl
  let inspectorChanges ← match args.includeUrlChanges with
    | none => pure inspectorChanges
    | some (schemasBefore, schemasAfter) => do
        let urlChanges ← detectUrlChanges schemasBefore schemasAfter
        pure (inspectorChanges ++ urlChanges)
  pure (if args.filterOutFederationChanges then
          inspectorChanges.filter (fun c => ¬ isFederationRelatedChange c)
        else inspectorChanges)

/-- `RegistryChecks.diff`: skip when either SDL is absent or does not build;
otherwise classify the detected changes and fail exactly when a non-approved,
non-usage-safe breaking change was found. -/
def RegistryChecks.diff (env : Env) (args : DiffArgs) : Except String SchemaDiffResult :=
  match args.existingSdl, args.incomingSdl with
  | some existingSdl, some incomingSdl =>
    if env.schemaParses existingSdl ∧ env.schemaParses incomingSdl then do
      let changes ← RegistryChecks.effectiveChanges env args existingSdl incomingSdl
      let classified := changes.foldl (diffClassifyStep args.approvedChanges) (false, [], [])
      pure (diffFinalize classified.1 classified.2.1 classified.2.2)
    else
      pure SchemaDiffResult.skipped
  | _, _ => pure SchemaDiffResult.skipped

/-! ### serviceName / serviceUrl / metadata primitives -/

/-- `RegistryChecks.serviceName({name})`. -/
def RegistryChecks.serviceName (name : Option String) : CheckResult Unit String :=
  if ¬ strTruthy name then CheckResult.failed "Service name is required"
  else CheckResult.completed ()

/-- `RegistryChecks.serviceUrl(service, existingService)`; `isValidURL` stands
for node's `new URL(url)` succeeding. -/
def RegistryChecks.serviceUrl (isValidURL : String → Bool) (serviceUrl : Option String)
    (existingService : Option (Option String)) : CheckResult UrlCheckOk String :=
  if ¬ strTruthy serviceUrl then CheckResult.failed "Service url is required"
  else
    let url := serviceUrl.getD ""
    if ¬ isValidURL url then CheckResult.failed "Invalid service URL provided"
    else
      match existingService with
      | some existingUrl =>
        if serviceUrl ≠ existingUrl then
          CheckResult.completed (UrlCheckOk.modified existingUrl url
            ("New service url: " ++ url ++ " (previously: " ++ existingUrl.getD "none" ++ ")"))
        else CheckResult.completed UrlCheckOk.unchanged
      | none => CheckResult.completed UrlCheckOk.unchanged

/-- JSON / object-hash oracles used by the metadata check. -/
structure MetaEnv where
  /-- `JSON.parse`, abstracted: `none` models a thrown parse error, `some v`
  a canonical representation of the parsed object. -/
  jsonParse : String → Option String
  /-- `hashObject` of the object-hash package, over parsed-or-null values. -/
  hashObject : Option String → Nat

/-- `service.metadata ? JSON.parse(service.metadata) : null` (throwing). -/
def parseMeta (env : MetaEnv) (m : Option String) : Except String (Option String) :=
  if strTruthy m then
    match env.jsonParse (m.getD "") with
    | some v => Except.ok (some v)
    | none => Except.error "Failed to parse metadata"
  else Except.ok none

/-- `RegistryChecks.metadata(service, existingService)`: any parse throw inside
the `try` block (incoming or existing metadata) makes the check fail. -/
def RegistryChecks.metadata (env : MetaEnv) (serviceMetadata : Option String)
    (existingService : Option (Option String)) : CheckResult MetaStatus String :=
  match (do
    let parsed ← parseMeta env serviceMetadata
    match existingService with
    | none => pure false
    | some existingMetadata => do
        let exParsed ← parseMeta env existingMetadata
        pure (env.hashObject parsed ≠ env.hashObject exParsed) : Except String Bool) with
  | Except.ok modified =>
    CheckResult.completed (if modified then MetaStatus.modified else MetaStatus.unchanged)
  | Except.error e => CheckResult.failed e

/-! ### shared.ts — conclusion types and contract-check helpers -/

/-- `SchemaCheckCompositionState` of shared.ts. -/
structure SchemaCheckCompositionState where
  errors : Option (List CompositionError)
  compositeSchemaSDL : Option String
  supergraphSDL : Option String
deriving DecidableEq, Repr

/-- `ContractCheckInput` of shared.ts. -/
structure ContractCheckInput where
  contractId : String
  contractName : String := ""
  compositionCheck : ContractCompositionResult
  diffCheck : SchemaDiffResult
deriving DecidableEq, Repr

/-- `isContractChecksSuccessful`: the contract's composition completed and its
diff is not failing. -/
def isContractChecksSuccessful (input : ContractCheckInput) : Bool :=
  input.compositionCheck.isCompleted ∧ ¬ input.diffCheck.isFailed

/-- Per-contract record inside a failed check state. -/
structure ContractFailRecord where
  contractId : String
  contractName : String
  isSuccessful : Bool
  composition : SchemaCheckCompositionState
  schemaChanges : Option SchemaChangesRecord
deriving DecidableEq, Repr

/-- Schema-policy slice of a failed check state. -/
structure SchemaPolicyRecord where
  errors : Option (List SchemaCheckWarning)
  warnings : Option (List SchemaCheckWarning)
deriving DecidableEq, Repr

/-- `SchemaCheckFailure['state']`. -/
structure SchemaCheckFailureState where
  schemaChanges : Option SchemaChangesRecord
  composition : SchemaCheckCompositionState
  schemaPolicy : Option SchemaPolicyRecord
  contracts : Option (List ContractFailRecord)
deriving DecidableEq, Repr

/-- Composition slice of a contract record in a failure state. -/
def ContractCompositionResult.toFailState : ContractCompositionResult →
    SchemaCheckCompositionState
  | .failed errors _ =>
    { errors := some errors, compositeSchemaSDL := none, supergraphSDL := none }
  | .completed sdl supergraph =>
    { errors := none, compositeSchemaSDL := some sdl, supergraphSDL := supergraph }

/-- `buildSchemaCheckFailureState` of shared.ts. -/
def buildSchemaCheckFailureState (compositionCheck : CompositionCheckResult)
    (diffCheck : SchemaDiffResult) (policyCheck : Option PolicyCheckResult)
    (contractChecks : Option (List ContractCheckInput)) : SchemaCheckFailureState :=
  let compositionErrors : List CompositionError :=
    match compositionCheck with
    | .failed errors _ => errors
    | _ => []
  { schemaChanges := (diffCheck.reason?).or (diffCheck.result?)
    composition :=
      if compositionErrors.length ≠ 0 ∨ compositionCheck.isFailed then
        { errors := some compositionErrors, compositeSchemaSDL := none, supergraphSDL := none }
      else
        { errors := none
          compositeSchemaSDL := compositionCheck.resultFullSchemaSdl
          supergraphSDL := compositionCheck.resultSupergraph }
    schemaPolicy :=
      match policyCheck with
      | none => none
      | some pc =>
        some { errors := match pc with | .failed errors _ => some errors | _ => none
               warnings := match pc with
                 | .failed _ warnings => warnings
                 | .completed warnings => warnings
                 | .skipped => none }
    contracts :=
      contractChecks.map (fun l => l.map (fun contractCheck =>
        { contractId := contractCheck.contractId
          contractName := contractCheck.contractName
          isSuccessful := isContractChecksSuccessful contractCheck
          composition := contractCheck.compositionCheck.toFailState
          schemaChanges :=
            (contractCheck.diffCheck.reason?).or (contractCheck.diffCheck.result?) })) }

/-- Per-contract record inside a successful check state (`isSuccessful: true`). -/
structure ContractSuccessRecord where
  contractId : String
  isSuccessful : Bool
  composition : SchemaCheckCompositionState
  schemaChanges : Option SchemaChangesRecord
deriving DecidableEq, Repr

/-- `SchemaCheckSuccess['state']` (non-null case). -/
structure SchemaCheckSuccessState where
  schemaPolicyWarnings : Option (List SchemaCheckWarning)
  schemaChanges : Option SchemaChangesRecord
  compositionCompositeSchemaSDL : String
  compositionSupergraphSDL : Option String
  contracts : Option (List ContractSuccessRecord)
deriving DecidableEq, Repr

/-- `SchemaCheckResult` (`SchemaCheckConclusion.Success/Failure` with state). -/
inductive SchemaCheckResult where
  | success (state : Option SchemaCheckSuccessState)
  | failure (state : SchemaCheckFailureState)
deriving DecidableEq, Repr

/-! ### CompositeModel.check — conclusion reduction -/

/-- The tail of `CompositeModel.check`, after the composition, diff, policy and
per-contract checks have produced their outcomes: decides between `Failure`
(packaging the per-stage reasons) and `Success`.  The source's guard uses
`contractChecks.some(isContractChecksSuccessful)`, and the success branch
throws `'This should not happen.'` on any unsuccessful contract check; both
are kept verbatim. -/
def CompositeModel.checkConclude (compositionCheck : CompositionCheckResult)
    (diffCheck : SchemaDiffResult) (policyCheck : PolicyCheckResult)
    (contractChecks : Option (List ContractCheckInput)) : Except String SchemaCheckResult :=
  if compositionCheck.isFailed ∨ diffCheck.isFailed ∨ policyCheck.isFailed ∨
     ((contractChecks.getD []).length ≠ 0 ∧
       ¬ (contractChecks.getD []).any isContractChecksSuccessful) then
    Except.ok (SchemaCheckResult.failure
      (buildSchemaCheckFailureState compositionCheck diffCheck (some policyCheck) contractChecks))
  else
    match compositionCheck with
    | .failed _ _ =>
      Except.error "TypeError: Cannot read properties of undefined (reading 'fullSchemaSdl')"
    | .completed fullSchemaSdl supergraph _ _ => do
      let contracts ← match contractChecks with
        | none => pure none
        | some l => some <$> l.mapM (fun contractCheck =>
            if ¬ isContractChecksSuccessful contractCheck then
              Except.error "This should not happen."
            else
              match contractCheck.compositionCheck with
              | .failed _ _ =>
                Except.error "TypeError: Cannot read properties of undefined (reading 'fullSchemaSdl')"
              | .completed contractSdl contractSupergraph =>
                Except.ok ({ contractId := contractCheck.contractId
                             isSuccessful := true
                             composition := { errors := none
                                              compositeSchemaSDL := some contractSdl
                                              supergraphSDL := contractSupergraph }
                             schemaChanges := contractCheck.diffCheck.result? }
                           : ContractSuccessRecord))
      Except.ok (SchemaCheckResult.success (some
        { schemaPolicyWarnings := match policyCheck with | .completed w => w | _ => none
          schemaChanges := diffCheck.result?
          compositionCompositeSchemaSDL := fullSchemaSdl
          compositionSupergraphSDL := supergraph
          contracts := contracts }))

/-! ### CompositeModel.publish — conclusion reduction -/

/-- `SchemaPublishSuccess['state']` (the slice the claims are about). -/
structure PublishState where
  composable : Bool
  initial : Bool
  changes : Option (List SchemaChange)
  messages : List String
  breakingChanges : Option (List SchemaChange)
  compositionErrors : Option (List CompositionError)
  supergraph : Option String
  fullSchemaSdl : Option String
  tags : Option (List String)
deriving DecidableEq, Repr

/-- `SchemaPublishFailureReason`. -/
inductive PublishFailureReason where
  | missingServiceName
  | missingServiceUrl
  | metadataParsingFailure
  | compositionFailure (compositionErrors : List CompositionError)
deriving DecidableEq, Repr

/-- `SchemaPublishResult` (conclusion `Publish` / `Ignore{NoChanges}` / `Reject`). -/
inductive SchemaPublishResult where
  | publish (state : PublishState)
  | ignore
  | reject (reasons : List PublishFailureReason)
deriving DecidableEq, Repr

/-- The decision logic of `CompositeModel.publish`, over the outcomes of the
service-name, service-url, checksum, metadata, composition and diff checks:
name/url failure → `Reject`; unchanged checksum → `Ignore{NoChanges}`;
metadata failure → `Reject`; composition failure with graphql-source errors
while `compareToLatest` → `Reject{CompositionFailure}`; otherwise `Publish`. -/
def CompositeModel.publish (latest : Option LatestVersion) (compareToLatest : Bool)
    (serviceNameCheck : CheckResult Unit String)
    (serviceUrlCheck : CheckResult UrlCheckOk String)
    (checksumCheck : ChecksumResult)
    (metadataCheck : CheckResult MetaStatus String)
    (compositionCheck : CompositionCheckResult)
    (diffCheck : SchemaDiffResult) : SchemaPublishResult :=
  if serviceNameCheck.isFailed ∨ serviceUrlCheck.isFailed then
    SchemaPublishResult.reject
      ((if serviceNameCheck.isFailed then [PublishFailureReason.missingServiceName] else []) ++
       (if serviceUrlCheck.isFailed then [PublishFailureReason.missingServiceUrl] else []))
  else if checksumCheck = ChecksumResult.unchanged then
    SchemaPublishResult.ignore
  else if metadataCheck.isFailed then
    SchemaPublishResult.reject [PublishFailureReason.metadataParsingFailure]
  else
    let hasNewUrl := urlCheckModified serviceUrlCheck
    let hasNewMetadata := metaCheckModified metadataCheck
    let messages :=
      (if hasNewUrl then [(urlCheckMessage serviceUrlCheck).getD ""] else []) ++
      (if hasNewMetadata then ["Metadata has been updated"] else [])
    if compositionCheck.isFailed ∧ compositionCheck.graphqlErrors.length ≠ 0 ∧ compareToLatest then
      SchemaPublishResult.reject
        [PublishFailureReason.compositionFailure compositionCheck.graphqlErrors]
    else
      SchemaPublishResult.publish
        { composable := compositionCheck.isCompleted
          initial := latest.isNone
          changes := diffCheck.changesAll
          messages := messages
          breakingChanges := none
          compositionErrors := compositionCheck.reasonErrors
          supergraph := compositionCheck.resultSupergraph
          fullSchemaSdl := compositionCheck.resultFullSchemaSdl
          tags := compositionCheck.resultTags }

/-! ### SchemaPublisher — context-id resolution (schema-publisher.ts) -/

/-- The GitHub slice of the check input (`input.github`). -/
structure GitHubInput where
  repository : Option String
  pullRequestNumber : Option Nat
deriving DecidableEq, Repr

/-- `SchemaCheckContextIdModel.safeParse` — zod `string().min(1).max(200)` with
the source's error messages. -/
def SchemaCheckContextIdModel.safeParse (s : String) : Except String String :=
  if s.length < 1 then Except.error "Context ID must be at least 1 character long."
  else if s.length > 200 then Except.error "Context ID cannot exceed length of 200 characters."
  else Except.ok s

/-- The context-id resolution block of `SchemaPublisher.check`: an explicit
`input.contextId` is validated; otherwise, when GitHub metadata with a truthy
repository and pull-request number is present, the id is synthesized as
`"{repository}#{pullRequestNumber}"`. -/
def SchemaPublisher.resolveContextId (inputContextId : Option String)
    (github : Option GitHubInput) : Except String (Option String) :=
  match inputContextId with
  | some cid =>
    match SchemaCheckContextIdModel.safeParse cid with
    | Except.error e => Except.error e
    | Except.ok v => Except.ok (some v)
  | none =>
    match github with
    | some gh =>
      if strTruthy gh.repository ∧ numTruthy gh.pullRequestNumber then
        Except.ok (some (gh.repository.getD "" ++ "#" ++ toString (gh.pullRequestNumber.getD 0)))
      else Except.ok none
    | none => Except.ok none

/-- `SchemaPublisher.check` around the context-id block: on a validation error
it returns a `SchemaCheckError` immediately; otherwise the rest of the check
pipeline runs with the resolved context id (the pipeline is abstracted as a
continuation). -/
def SchemaPublisher.checkWithContextId {α : Type} (inputContextId : Option String)
    (github : Option GitHubInput) (onValidationError : String → α)
    (pipeline : Option String → α) : α :=
  match SchemaPublisher.resolveContextId inputContextId github with
  | Except.error e => onValidationError e
  | Except.ok contextId => pipeline contextId

/-! ### SchemaPublisher — publish persistence (internalPublish) -/

/-- The columns of the new `schema_version` row the invariant claims are
about. -/
structure NewVersionRecord where
  valid : Bool
  compositeSchemaSDL : Option String
  supergraphSDL : Option String
  schemaCompositionErrors : Option (List CompositionError)
  tags : Option (List String)
deriving DecidableEq, Repr

/-- The persistence step of `internalPublish` for a `Publish` conclusion:
the `composable && !fullSchemaSdl` guard throws, then the version row is
assembled from `fullSchemaSdl ? ... : ...` with `assertNonNull` on the
composition errors in the null branch. -/
def SchemaPublisher.persistPublish (state : PublishState) : Except String NewVersionRecord :=
  let composable := state.composable
  let fullSchemaSdl := state.fullSchemaSdl
  if composable ∧ ¬ strTruthy fullSchemaSdl then
    Except.error "Version is composable but the full schema SDL is missing"
  else if strTruthy fullSchemaSdl then
    Except.ok { valid := composable
                compositeSchemaSDL := fullSchemaSdl
                supergraphSDL := state.supergraph
                schemaCompositionErrors := none
                tags := state.tags }
  else
    match state.compositionErrors with
    | none => Except.error "Can't be null"
    | some errs =>
      Except.ok { valid := composable
                  compositeSchemaSDL := none
                  supergraphSDL := none
                  schemaCompositionErrors := some errs
                  tags := none }

/-- What `internalPublish` returns to the caller, reduced to the fields the
claims mention (the GitHub check-run reporting variant is omitted). -/
inductive PublishResponse where
  | success (initial : Bool) (valid : Bool) (changes : List SchemaChange)
  | publishError
  | missingServiceError
  | missingUrlError
deriving DecidableEq, Repr

/-- Conclusion handling of `internalPublish`: `Ignore` returns a success
response without touching storage, `Reject` maps the failure reasons to error
responses, `Publish` persists a new schema version.  The second component is
the created `schema_version` row, when one was created. -/
def SchemaPublisher.handlePublishResult (r : SchemaPublishResult) :
    Except String (PublishResponse × Option NewVersionRecord) :=
  match r with
  | .ignore => Except.ok (PublishResponse.success false true [], none)
  | .reject reasons =>
    if reasons.any (fun x => x = PublishFailureReason.missingServiceName) then
      Except.ok (PublishResponse.missingServiceError, none)
    else if reasons.any (fun x => x = PublishFailureReason.missingServiceUrl) then
      Except.ok (PublishResponse.missingUrlError, none)
    else
      Except.ok (PublishResponse.publishError, none)
  | .publish state => do
    let record ← SchemaPublisher.persistPublish state
    Except.ok (PublishResponse.success state.initial record.valid (state.changes.getD []),
               some record)

/-! ### SchemaPublisher — delete flow -/

/-- The slice of the loaded latest version the delete flow inspects. -/
structure LatestVersionRecord where
  valid : Bool
  schemas : List SubgraphDefinition
deriving DecidableEq, Repr

/-- Responses of the delete flow up to and including model dispatch. -/
inductive DeleteFlowResponse (α : Type) where
  | serviceNotFound (valid : Bool) (message : String)
  | modelInvoked (result : α) (createdVersion : Option NewVersionRecord)
deriving DecidableEq, Repr

/-- The guards of `SchemaPublisher.delete` for a modern composite project:
an empty registry throws `HiveError('Registry is empty')`; an unknown service
name returns a `SchemaDeleteError` before the project model is invoked.  The
model invocation and subsequent persistence are abstracted as `proceed`. -/
def SchemaPublisher.deleteFlow {α : Type} (latestVersion : Option LatestVersionRecord)
    (serviceName : String)
    (proceed : List SubgraphDefinition → α × Option NewVersionRecord) :
    Except String (DeleteFlowResponse α) :=
  match latestVersion with
  | none => Except.error "Registry is empty"
  | some latest =>
    if latest.schemas.length = 0 then Except.error "Registry is empty"
    else
      let schemas := latest.schemas
      let serviceExists := schemas.any (fun s => s.service_name = serviceName)
      if ¬ serviceExists then
        Except.ok (DeleteFlowResponse.serviceNotFound latest.valid
          ("Service \"" ++ serviceName ++ "\" not found"))
      else
        let pr := proceed schemas
        Except.ok (DeleteFlowResponse.modelInvoked pr.1 pr.2)

/-! ### Background purge of expired schema checks -/

/-- A `schema_checks` row, reduced to the columns the purge touches. -/
structure SchemaCheckRow where
  id : String
  context_id : Option String
  expires_at : Int
deriving DecidableEq, Repr

/-- A `schema_change_approvals` row (`(target_id, context_id, schema_change_id)`). -/
structure ApprovalRow where
  target_id : String
  context_id : String
  schema_change_id : String
deriving DecidableEq, Repr

/-- The persisted state the purge task operates on. -/
structure RegistryDb where
  schemaChecks : List SchemaCheckRow
  approvals : List ApprovalRow
deriving DecidableEq, Repr

/-- Modelled from the spec: the storage implementation of
`purgeExpiredSchemaChecks` is not among the sources here — only its caller,
the `dbPurgeTaskRunner` of `packages/services/server/src/index.ts`, which
invokes it with `expiresAt = new Date()` on every tick.  Per the spec it
"deletes exactly the set `{c | c.expires_at ≤ now}`; corresponding approvals
(keyed by `context_id`) are untouched". -/
def purgeExpiredSchemaChecks (now : Int) (db : RegistryDb) : RegistryDb × Nat :=
  let deleted := db.schemaChecks.filter (fun c => c.expires_at ≤ now)
  ({ schemaChecks := db.schemaChecks.filter (fun c => ¬ c.expires_at ≤ now)
     approvals := db.approvals },
   deleted.length)

/-! ## Helper lemmas -/

theorem strTruthy_eq_true_iff (o : Option String) :
    strTruthy o = true ↔ ∃ s, o = some s ∧ s ≠ "" := by
  cases o <;> simp [strTruthy]

/-- When the name/url/checksum/metadata stages pass and the graphql-reject
guard does not fire, `CompositeModel.publish` returns the `Publish` state
assembled from the stage outcomes. -/
theorem CompositeModel.publish_eq_publish
    (latest : Option LatestVersion) (compareToLatest : Bool)
    (serviceNameCheck : CheckResult Unit String) (serviceUrlCheck : CheckResult UrlCheckOk String)
    (checksumCheck : ChecksumResult) (metadataCheck : CheckResult MetaStatus String)
    (compositionCheck : CompositionCheckResult) (diffCheck : SchemaDiffResult)
    (hname : serviceNameCheck.isFailed = false)
    (hurl : serviceUrlCheck.isFailed = false)
    (hchk : checksumCheck ≠ ChecksumResult.unchanged)
    (hmeta : metadataCheck.isFailed = false)
    (hcond : ¬ (compositionCheck.isFailed = true ∧ compositionCheck.graphqlErrors ≠ [] ∧
      compareToLatest = true)) :
    CompositeModel.publish latest compareToLatest serviceNameCheck serviceUrlCheck
        checksumCheck metadataCheck compositionCheck diffCheck =
      SchemaPublishResult.publish
        { composable := compositionCheck.isCompleted
          initial := latest.isNone
          changes := diffCheck.changesAll
          messages :=
            (if urlCheckModified serviceUrlCheck then
              [(urlCheckMessage serviceUrlCheck).getD ""] else []) ++
            (if metaCheckModified metadataCheck then ["Metadata has been updated"] else [])
          breakingChanges := none
          compositionErrors := compositionCheck.reasonErrors
          supergraph := compositionCheck.resultSupergraph
          fullSchemaSdl := compositionCheck.resultFullSchemaSdl
          tags := compositionCheck.resultTags } := by
  simp only [ne_eq, ← List.length_eq_zero] at hcond
  unfold CompositeModel.publish
  rw [if_neg (by simp [hname, hurl] : ¬ (serviceNameCheck.isFailed = true ∨
        serviceUrlCheck.isFailed = true)),
    if_neg hchk, if_neg (by simp [hmeta] : ¬ metadataCheck.isFailed = true),
    if_neg (by tauto : ¬ (compositionCheck.isFailed = true ∧
      ¬ compositionCheck.graphqlErrors.length = 0 ∧ compareToLatest = true))]

/-- When the name/url/checksum/metadata stages pass, the composition check
failed with a graphql-source error, and `compareToLatest` is active,
`CompositeModel.publish` rejects with `CompositionFailure`. -/
theorem CompositeModel.publish_eq_reject_graphql
    (latest : Option LatestVersion) (compareToLatest : Bool)
    (serviceNameCheck : CheckResult Unit String) (serviceUrlCheck : CheckResult UrlCheckOk String)
    (checksumCheck : ChecksumResult) (metadataCheck : CheckResult MetaStatus String)
    (compositionCheck : CompositionCheckResult) (diffCheck : SchemaDiffResult)
    (hname : serviceNameCheck.isFailed = false)
    (hurl : serviceUrlCheck.isFailed = false)
    (hchk : checksumCheck ≠ ChecksumResult.unchanged)
    (hmeta : metadataCheck.isFailed = false)
    (h1 : compositionCheck.isFailed = true)
    (h2 : compositionCheck.graphqlErrors ≠ [])
    (h3 : compareToLatest = true) :
    CompositeModel.publish latest compareToLatest serviceNameCheck serviceUrlCheck
        checksumCheck metadataCheck compositionCheck diffCheck =
      SchemaPublishResult.reject
        [PublishFailureReason.compositionFailure compositionCheck.graphqlErrors] := by
  have h2' : ¬ compositionCheck.graphqlErrors.length = 0 := by
    simpa [List.length_eq_zero] using h2
  unfold CompositeModel.publish
  rw [if_neg (by simp [hname, hurl] : ¬ (serviceNameCheck.isFailed = true ∨
        serviceUrlCheck.isFailed = true)),
    if_neg hchk, if_neg (by simp [hmeta] : ¬ metadataCheck.isFailed = true),
    if_pos ⟨h1, h2', h3⟩]

/-- The per-entry projection `detectUrlChanges` computes for each after-entry:
the URL-change meta record, when the service also appears in the before set
with a different URL. -/
def urlMetaProj (before : List SubgraphDefinition) (a : SubgraphDefinition) :
    Option UrlChangeMeta :=
  match mapGetLast before a.service_name with
  | none => none
  | some b =>
    if b.service_url ≠ a.service_url then
      some ⟨a.service_name, b.service_url, a.service_url⟩
    else none

/-- The emitted `SchemaChange` for an after-entry, if any. -/
def urlChangeProj (before : List SubgraphDefinition) (a : SubgraphDefinition) :
    Option SchemaChange :=
  (urlMetaProj before a).map
    (fun m => hiveSchemaChangeModelParse "REGISTRY_SERVICE_URL_CHANGED" m false)

/-- The `serviceName` recorded in a change's meta payload. -/
def changeServiceName (c : SchemaChange) : Option String :=
  c.meta.map UrlChangeMeta.serviceName

theorem mapGetLast_eq_some (l : List SubgraphDefinition) (n : String) (b : SubgraphDefinition)
    (h : mapGetLast l n = some b) : b ∈ l ∧ b.service_name = n := by
  unfold mapGetLast at h
  refine ⟨List.mem_reverse.mp (List.mem_of_find?_eq_some h), ?_⟩
  simpa using List.find?_some h

theorem mapGetLast_eq_none (l : List SubgraphDefinition) (n : String)
    (h : mapGetLast l n = none) : ∀ b ∈ l, b.service_name ≠ n := by
  intro b hb
  unfold mapGetLast at h
  have := List.find?_eq_none.mp h b (List.mem_reverse.mpr hb)
  simpa using this

theorem mapGetLast_eq_some_of_mem (l : List SubgraphDefinition) (n : String)
    (b : SubgraphDefinition) (hn : (l.map SubgraphDefinition.service_name).Nodup)
    (hb : b ∈ l) (hname : b.service_name = n) : mapGetLast l n = some b := by
  cases h : mapGetLast l n with
  | none => exact absurd hname (mapGetLast_eq_none l n h b hb)
  | some b' =>
    obtain ⟨hb', hname'⟩ := mapGetLast_eq_some l n b' h
    have : b' = b :=
      List.inj_on_of_nodup_map hn hb' hb (by rw [hname, hname'])
    rw [this]

theorem detectUrlChangeStep_ok (before : List SubgraphDefinition) (a : SubgraphDefinition)
    (hBu : ∀ s ∈ before, s.service_url ≠ some "") (ha : a.service_url ≠ some "") :
    detectUrlChangeStep before a = Except.ok (urlMetaProj before a) := by
  unfold detectUrlChangeStep urlMetaProj
  cases hb : mapGetLast before a.service_name with
  | none => rfl
  | some b =>
    dsimp only
    have hbu : b.service_url ≠ some "" := hBu b (mapGetLast_eq_some before _ b hb).1
    by_cases hne : b.service_url = a.service_url
    · simp [hne]
    · have hneq : b.service_url ≠ a.service_url := hne
      rw [if_pos hneq, if_pos hneq]
      cases hbo : b.service_url with
      | none =>
        cases hao : a.service_url with
        | none => exact absurd (hbo.trans hao.symm) hne
        | some sa =>
          have hsa : sa ≠ "" := by
            intro hcontra
            rw [hcontra] at hao
            exact ha hao
          simp [strTruthy, hsa]
      | some sb =>
        have hsb : sb ≠ "" := by
          intro hcontra
          rw [hcontra] at hbo
          exact hbu hbo
        cases hao : a.service_url with
        | none => simp [strTruthy, hsb]
        | some sa =>
          have hsa : sa ≠ "" := by
            intro hcontra
            rw [hcontra] at hao
            exact ha hao
          simp [strTruthy, hsb, hsa]

theorem detectUrl_foldlM (before : List SubgraphDefinition)
    (hBu : ∀ s ∈ before, s.service_url ≠ some "") :
    ∀ (after : List SubgraphDefinition), (∀ s ∈ after, s.service_url ≠ some "") →
    ∀ (acc : List UrlChangeMeta),
      (after.foldlM
        (fun (acc : List UrlChangeMeta) schema => do
          match (← detectUrlChangeStep before schema) with
          | some m => pure (acc ++ [m])
          | none => pure acc) acc : Except String (List UrlChangeMeta)) =
      Except.ok (acc ++ after.filterMap (urlMetaProj before)) := by
  intro after
  induction after with
  | nil =>
    intro _ acc
    simp
    rfl
  | cons a rest ih =>
    intro hAu acc
    rw [List.foldlM_cons]
    have hstep := detectUrlChangeStep_ok before a hBu (hAu a (by simp))
    cases hm : urlMetaProj before a with
    | none =>
      rw [hm] at hstep
      show (detectUrlChangeStep before a >>= _) >>= _ = _
      rw [hstep]
      show (rest.foldlM _ acc : Except String _) = _
      rw [ih (fun s hs => hAu s (by simp [hs])) acc]
      simp [List.filterMap_cons, hm]
    | some m =>
      rw [hm] at hstep
      show (detectUrlChangeStep before a >>= _) >>= _ = _
      rw [hstep]
      show (rest.foldlM _ (acc ++ [m]) : Except String _) = _
      rw [ih (fun s hs => hAu s (by simp [hs])) (acc ++ [m])]
      simp [List.filterMap_cons, hm]

/-- `detectUrlChanges`, on inputs without empty-string URLs, succeeds and emits
exactly the per-after-entry projections. -/
theorem detectUrlChanges_ok (before after : List SubgraphDefinition)
    (hBu : ∀ s ∈ before, s.service_url ≠ some "")
    (hAu : ∀ s ∈ after, s.service_url ≠ some "") :
    detectUrlChanges before after = Except.ok (after.filterMap (urlChangeProj before)) := by
  unfold detectUrlChanges
  by_cases h0 : before.length = 0
  · rw [if_pos h0]
    have hnil : before = [] := List.length_eq_zero.mp h0
    subst hnil
    have : ∀ a, urlChangeProj [] a = none := by
      intro a
      simp [urlChangeProj, urlMetaProj, mapGetLast]
    simp [List.filterMap_eq_nil_iff, this]
  · rw [if_neg h0, if_neg h0]
    show ((after.foldlM _ []) >>= _ : Except String _) = _
    rw [detectUrl_foldlM before hBu after hAu []]
    show Except.ok _ = _
    rw [List.nil_append, List.map_filterMap]
    rfl

theorem countP_filterMap_keyed {α β : Type} [DecidableEq β] (key : α → String)
    (ckey : β → Option String) (f : α → Option β)
    (hf : ∀ a b, f a = some b → ckey b = some (key a))
    (l : List α) (hn : (l.map key).Nodup) (n : String) :
    (l.filterMap f).countP (fun b => decide (ckey b = some n)) =
      if ∃ a ∈ l, key a = n ∧ (f a).isSome = true then 1 else 0 := by
  induction l with
  | nil => simp
  | cons a rest ih =>
    rw [List.map_cons, List.nodup_cons] at hn
    obtain ⟨hnotin, hn'⟩ := hn
    rw [List.filterMap_cons]
    cases hfa : f a with
    | none =>
      rw [ih hn']
      refine if_congr ?_ rfl rfl
      constructor
      · rintro ⟨x, hx, hkx, hfx⟩
        exact ⟨x, List.mem_cons_of_mem a hx, hkx, hfx⟩
      · rintro ⟨x, hx, hkx, hfx⟩
        rcases List.mem_cons.mp hx with rfl | hx'
        · rw [hfa] at hfx
          cases hfx
        · exact ⟨x, hx', hkx, hfx⟩
    | some b =>
      have hkb : ckey b = some (key a) := hf a b hfa
      by_cases hk : key a = n
      · have hz : ¬ ∃ x ∈ rest, key x = n ∧ (f x).isSome = true := by
          rintro ⟨x, hx, hkx, _⟩
          exact hnotin (by rw [← hk] at hkx; exact hkx ▸ List.mem_map_of_mem key hx)
        rw [List.countP_cons, ih hn', if_neg hz,
          if_pos (⟨a, List.mem_cons_self a rest, hk, by simp [hfa]⟩ :
            ∃ x ∈ a :: rest, key x = n ∧ (f x).isSome = true)]
        simp [hkb, hk]
      · rw [List.countP_cons, ih hn',
          if_neg (show ¬ ((fun b => decide (ckey b = some n)) b = true) by simp [hkb, hk])]
        simp only [Nat.add_zero]
        refine if_congr ?_ rfl rfl
        constructor
        · rintro ⟨x, hx, hkx, hfx⟩
          exact ⟨x, List.mem_cons_of_mem a hx, hkx, hfx⟩
        · rintro ⟨x, hx, hkx, hfx⟩
          rcases List.mem_cons.mp hx with rfl | hx'
          · exact absurd hkx hk
          · exact ⟨x, hx', hkx, hfx⟩

theorem urlChangeProj_isSome_iff (before : List SubgraphDefinition) (a : SubgraphDefinition)
    (hn : (before.map SubgraphDefinition.service_name).Nodup) :
    (urlChangeProj before a).isSome = true ↔
      ∃ b ∈ before, b.service_name = a.service_name ∧ b.service_url ≠ a.service_url := by
  unfold urlChangeProj urlMetaProj
  cases h : mapGetLast before a.service_name with
  | none =>
    simp only [Option.map_none', Option.isSome_none, Bool.false_eq_true, false_iff]
    rintro ⟨b, hb, hname, _⟩
    exact absurd hname (mapGetLast_eq_none before _ h b hb)
  | some b =>
    obtain ⟨hb, hname⟩ := mapGetLast_eq_some before _ b h
    by_cases hne : b.service_url = a.service_url
    · simp only [hne, ne_eq, not_true_eq_false, if_false, Option.map_none', Option.isSome_none,
        Bool.false_eq_true, false_iff]
      rintro ⟨b', hb', hname', hne'⟩
      have hbb : b' = b := List.inj_on_of_nodup_map hn hb' hb (by rw [hname, hname'])
      rw [hbb, hne] at hne'
      exact hne' rfl
    · simp only [ne_eq, hne, not_false_eq_true, if_true, Option.map_some', Option.isSome_some,
        true_iff]
      exact ⟨b, hb, hname, hne⟩

theorem mapGetLast_perm (l₁ l₂ : List SubgraphDefinition) (hperm : l₁.Perm l₂)
    (hn : (l₁.map SubgraphDefinition.service_name).Nodup) (n : String) :
    mapGetLast l₁ n = mapGetLast l₂ n := by
  have hn₂ : (l₂.map SubgraphDefinition.service_name).Nodup :=
    ((hperm.map _).nodup_iff).mp hn
  cases h : mapGetLast l₁ n with
  | some b =>
    obtain ⟨hb, hname⟩ := mapGetLast_eq_some l₁ n b h
    exact (mapGetLast_eq_some_of_mem l₂ n b hn₂ (hperm.mem_iff.mp hb) hname).symm
  | none =>
    cases h₂ : mapGetLast l₂ n with
    | none => rfl
    | some b =>
      obtain ⟨hb, hname⟩ := mapGetLast_eq_some l₂ n b h₂
      exact absurd hname (mapGetLast_eq_none l₁ n h b (hperm.mem_iff.mpr hb))

/-- The failure predicate of the diff classification loop: a change flips
`isFailure` exactly when it is not usage-safe, has `Breaking` criticality and
has no entry in the approved-changes map. -/
def diffFailPred (approved : Option (List (String × SchemaChange))) (c : SchemaChange) : Bool :=
  !c.isSafeBasedOnUsage && decide (c.criticality = Criticality.breaking) &&
    (approvedGet approved c.id).isNone

/-- Membership predicate of the `safeChanges` output list. -/
def diffSafePred (c : SchemaChange) : Bool :=
  c.isSafeBasedOnUsage || !(decide (c.criticality = Criticality.breaking))

/-- Projection of a detected change onto the `breakingChanges` output list: a
breaking, non-usage-safe change is replaced by its stored approval snapshot
when one exists. -/
def diffBreakProj (approved : Option (List (String × SchemaChange))) (c : SchemaChange) :
    Option SchemaChange :=
  if c.isSafeBasedOnUsage then some c
  else if c.criticality = Criticality.breaking then some ((approvedGet approved c.id).getD c)
  else none

theorem diffFinalize_true (safeChanges breakingChanges : List SchemaChange) :
    diffFinalize true safeChanges breakingChanges =
      SchemaDiffResult.failed
        { breaking := some breakingChanges
          safe := if safeChanges.length ≠ 0 then some safeChanges else none
          all := if breakingChanges.length ≠ 0 ∨ safeChanges.length ≠ 0 then
              some (breakingChanges ++ safeChanges) else none } := rfl

theorem diffFinalize_false (safeChanges breakingChanges : List SchemaChange) :
    diffFinalize false safeChanges breakingChanges =
      SchemaDiffResult.completed
        { breaking := if breakingChanges.length ≠ 0 then some breakingChanges else none
          safe := if safeChanges.length ≠ 0 then some safeChanges else none
          all := if breakingChanges.length ≠ 0 ∨ safeChanges.length ≠ 0 then
              some (breakingChanges ++ safeChanges) else none } := rfl

theorem diffClassify_foldl (approved : Option (List (String × SchemaChange)))
    (l : List SchemaChange) (acc : Bool × List SchemaChange × List SchemaChange) :
    l.foldl (diffClassifyStep approved) acc =
      (acc.1 || l.any (diffFailPred approved),
       acc.2.1 ++ l.filter diffSafePred,
       acc.2.2 ++ l.filterMap (diffBreakProj approved)) := by
  induction l generalizing acc with
  | nil => simp
  | cons c rest ih =>
    rcases acc with ⟨isF, safeL, brL⟩
    rw [List.foldl_cons, ih]
    cases h1 : c.isSafeBasedOnUsage with
    | true =>
      simp [diffClassifyStep, diffFailPred, diffSafePred, diffBreakProj, h1, List.filter_cons,
        List.filterMap_cons, List.append_assoc]
    | false =>
      by_cases h2 : c.criticality = Criticality.breaking
      · cases h3 : approvedGet approved c.id with
        | some a =>
          simp [diffClassifyStep, diffFailPred, diffSafePred, diffBreakProj, h1, h2, h3,
            List.filter_cons, List.filterMap_cons, List.append_assoc]
        | none =>
          simp [diffClassifyStep, diffFailPred, diffSafePred, diffBreakProj, h1, h2, h3,
            List.filter_cons, List.filterMap_cons, List.append_assoc]
      · simp [diffClassifyStep, diffFailPred, diffSafePred, diffBreakProj, h1, h2,
          List.filter_cons, List.filterMap_cons, List.append_assoc]

/-- `RegistryChecks.diff`, on present and parseable SDLs, packages the
classified effective changes through `diffFinalize`. -/
theorem RegistryChecks.diff_eq_finalize (env : Env) (args : DiffArgs) (e i : String)
    (L : List SchemaChange)
    (he : args.existingSdl = some e) (hi : args.incomingSdl = some i)
    (hpe : env.schemaParses e = true) (hpi : env.schemaParses i = true)
    (hL : RegistryChecks.effectiveChanges env args e i = Except.ok L) :
    RegistryChecks.diff env args =
      Except.ok (diffFinalize (L.any (diffFailPred args.approvedChanges))
        (L.filter diffSafePred) (L.filterMap (diffBreakProj args.approvedChanges))) := by
  unfold RegistryChecks.diff
  rw [he, hi]
  simp only [hpe, hpi, and_self, if_true, if_pos]
  rw [hL]
  show Except.ok _ = _
  rw [diffClassify_foldl]
  simp

/-! ## Claims -/

/-- C3: `purgeExpiredSchemaChecks` deletes exactly the schema checks whose
`expires_at` is at most the supplied `now`, reports their count, and leaves
every schema change approval unchanged. -/
theorem purge_deletes_exactly_expired_and_keeps_approvals (now : Int) (db : RegistryDb) :
    (purgeExpiredSchemaChecks now db).1.approvals = db.approvals ∧
    (∀ c : SchemaCheckRow,
      c ∈ (purgeExpiredSchemaChecks now db).1.schemaChecks ↔
        c ∈ db.schemaChecks ∧ ¬ c.expires_at ≤ now) ∧
    (purgeExpiredSchemaChecks now db).2 =
      (db.schemaChecks.filter (fun c => c.expires_at ≤ now)).length := by
  refine ⟨rfl, ?_, rfl⟩
  intro c
  simp [purgeExpiredSchemaChecks, List.mem_filter]

/-- C10: for a modern composite/federation delete, an empty registry (no latest
version, or a latest version with no schemas) raises `'Registry is empty'`,
and an unknown service name returns a `SchemaDeleteError` without invoking the
project model (the outcome is the same for every `proceed` continuation) and
without creating a schema version. -/
theorem deleteFlow_guards :
    (∀ (α : Type) (serviceName : String)
        (proceed : List SubgraphDefinition → α × Option NewVersionRecord),
      SchemaPublisher.deleteFlow none serviceName proceed =
        Except.error "Registry is empty") ∧
    (∀ (α : Type) (latest : LatestVersionRecord) (serviceName : String)
        (proceed : List SubgraphDefinition → α × Option NewVersionRecord),
      latest.schemas = [] →
        SchemaPublisher.deleteFlow (some latest) serviceName proceed =
          Except.error "Registry is empty") ∧
    (∀ (α : Type) (latest : LatestVersionRecord) (serviceName : String)
        (proceed : List SubgraphDefinition → α × Option NewVersionRecord),
      (∀ s ∈ latest.schemas, s.service_name ≠ serviceName) →
      latest.schemas ≠ [] →
        SchemaPublisher.deleteFlow (some latest) serviceName proceed =
          Except.ok (DeleteFlowResponse.serviceNotFound latest.valid
            ("Service \"" ++ serviceName ++ "\" not found"))) := by
  refine ⟨fun α sn p => rfl, ?_, ?_⟩
  · intro α latest sn p h
    simp [SchemaPublisher.deleteFlow, h]
  · intro α latest sn p hno hne
    have hlen : ¬ latest.schemas.length = 0 := by
      simpa [List.length_eq_zero] using hne
    have hany : latest.schemas.any (fun s => s.service_name = sn) = false := by
      simp only [List.any_eq_false, decide_eq_true_eq]
      exact hno
    simp [SchemaPublisher.deleteFlow, hlen, hany]

theorem deleteFlow_guards_witness :
    SchemaPublisher.deleteFlow
        (some { valid := true, schemas := [{ service_name := "users", service_url := some "https://u" }] })
        "reviews"
        (fun (_ : List SubgraphDefinition) => ((0 : Nat), (none : Option NewVersionRecord))) =
      Except.ok (DeleteFlowResponse.serviceNotFound true "Service \"reviews\" not found") := by
  have h := deleteFlow_guards.2.2 Nat
    { valid := true, schemas := [{ service_name := "users", service_url := some "https://u" }] }
    "reviews" (fun _ => ((0 : Nat), none)) (by decide) (by decide)
  simpa using h

/-- C9: an explicitly provided context id is validated to length 1..200 — a
violation returns the validation error without running the rest of the check
pipeline (for any pipeline continuation) — while a valid one is passed on;
without an explicit id, GitHub metadata with a repository and pull-request
number synthesizes the id `"{repository}#{pullRequestNumber}"`. -/
theorem contextId_resolution_spec :
    (∀ (cid : String) (github : Option GitHubInput) (α : Type)
        (onValidationError : String → α) (p₁ p₂ : Option String → α),
      cid.length < 1 ∨ 200 < cid.length →
      ∃ e, SchemaPublisher.checkWithContextId (some cid) github onValidationError p₁ =
              onValidationError e ∧
           SchemaPublisher.checkWithContextId (some cid) github onValidationError p₂ =
              onValidationError e) ∧
    (∀ (cid : String) (github : Option GitHubInput) (α : Type)
        (onValidationError : String → α) (p : Option String → α),
      1 ≤ cid.length → cid.length ≤ 200 →
      SchemaPublisher.checkWithContextId (some cid) github onValidationError p = p (some cid)) ∧
    (∀ (repo : String) (pr : Nat) (α : Type) (onValidationError : String → α)
        (p : Option String → α),
      repo ≠ "" → pr ≠ 0 →
      SchemaPublisher.checkWithContextId none (some { repository := some repo, pullRequestNumber := some pr })
          onValidationError p =
        p (some (repo ++ "#" ++ toString pr))) := by
  refine ⟨?_, ?_, ?_⟩
  · intro cid github α onErr p₁ p₂ h
    rcases h with h | h
    · exact ⟨"Context ID must be at least 1 character long.", by
        simp [SchemaPublisher.checkWithContextId, SchemaPublisher.resolveContextId,
          SchemaCheckContextIdModel.safeParse, h], by
        simp [SchemaPublisher.checkWithContextId, SchemaPublisher.resolveContextId,
          SchemaCheckContextIdModel.safeParse, h]⟩
    · have h1 : ¬ cid.length < 1 := by omega
      exact ⟨"Context ID cannot exceed length of 200 characters.", by
        simp [SchemaPublisher.checkWithContextId, SchemaPublisher.resolveContextId,
          SchemaCheckContextIdModel.safeParse, h, h1], by
        simp [SchemaPublisher.checkWithContextId, SchemaPublisher.resolveContextId,
          SchemaCheckContextIdModel.safeParse, h, h1]⟩
  · intro cid github α onErr p h1 h2
    have h1' : ¬ cid.length < 1 := by omega
    have h2' : ¬ 200 < cid.length := by omega
    simp [SchemaPublisher.checkWithContextId, SchemaPublisher.resolveContextId,
      SchemaCheckContextIdModel.safeParse, h1', h2']
  · intro repo pr α onErr p hrepo hpr
    simp [SchemaPublisher.checkWithContextId, SchemaPublisher.resolveContextId,
      strTruthy, numTruthy, hrepo, hpr]

theorem contextId_resolution_witness :
    (∃ e, SchemaPublisher.checkWithContextId (some "") none (fun s => some s)
            (fun _ => (none : Option String)) = some e ∧
          SchemaPublisher.checkWithContextId (some "") none (fun s => some s)
            (fun _ => (none : Option String)) = some e) ∧
    SchemaPublisher.checkWithContextId (some "pr-1") none (fun _ => (none : Option String))
        (fun c => c) = some "pr-1" ∧
    SchemaPublisher.checkWithContextId none
        (some { repository := some "me/repo", pullRequestNumber := some 42 })
        (fun _ => (none : Option String)) (fun c => c) = some "me/repo#42" := by
  refine ⟨?_, ?_, ?_⟩
  · exact contextId_resolution_spec.1 "" none (Option String) (fun s => some s)
      (fun _ => none) (fun _ => none) (Or.inl (by decide))
  · have h := contextId_resolution_spec.2.1 "pr-1" none (Option String)
      (fun _ => none) (fun c => c) (by decide) (by decide)
    simpa using h
  · have h := contextId_resolution_spec.2.2 "me/repo" 42 (Option String)
      (fun _ => none) (fun c => c) (by decide) (by decide)
    exact h.trans rfl

/-- C8: a version row persisted by the publisher with a null
`composite_schema_sdl` always carries non-null `schema_composition_errors`,
and a publish state with `composable: true` must carry a (truthy) full schema
SDL — otherwise the publisher raises instead of persisting. -/
theorem persistPublish_invariants :
    (∀ (state : PublishState) (record : NewVersionRecord),
      SchemaPublisher.persistPublish state = Except.ok record →
        (record.compositeSchemaSDL = none → record.schemaCompositionErrors ≠ none) ∧
        record.valid = state.composable ∧
        (state.composable = true → ∃ sdl, state.fullSchemaSdl = some sdl ∧ sdl ≠ "")) ∧
    (∀ state : PublishState,
      state.composable = true → strTruthy state.fullSchemaSdl = false →
        SchemaPublisher.persistPublish state =
          Except.error "Version is composable but the full schema SDL is missing") := by
  constructor
  · intro state record h
    cases hc : state.composable <;> cases ht : strTruthy state.fullSchemaSdl
    · cases he : state.compositionErrors with
      | none => simp [SchemaPublisher.persistPublish, hc, ht, he] at h
      | some errs =>
        simp [SchemaPublisher.persistPublish, hc, ht, he] at h
        refine ⟨fun _ => ?_, ?_, fun hcontra => ?_⟩
        · rw [← h]
          simp
        · rw [← h]
        · cases hcontra
    · simp [SchemaPublisher.persistPublish, hc, ht] at h
      obtain ⟨s, hs, hns⟩ := (strTruthy_eq_true_iff state.fullSchemaSdl).mp ht
      refine ⟨fun hnull => ?_, ?_, fun _ => ⟨s, hs, hns⟩⟩
      · rw [← h] at hnull
        simp [hs] at hnull
      · rw [← h]
    · simp [SchemaPublisher.persistPublish, hc, ht] at h
    · simp [SchemaPublisher.persistPublish, hc, ht] at h
      obtain ⟨s, hs, hns⟩ := (strTruthy_eq_true_iff state.fullSchemaSdl).mp ht
      refine ⟨fun hnull => ?_, ?_, fun _ => ⟨s, hs, hns⟩⟩
      · rw [← h] at hnull
        simp [hs] at hnull
      · rw [← h]
  · intro state h1 h2
    simp [SchemaPublisher.persistPublish, h1, h2]

theorem persistPublish_invariants_witness :
    (({ valid := false, compositeSchemaSDL := none, supergraphSDL := none,
        schemaCompositionErrors := some [{ message := "boom", source := ErrSource.composition }],
        tags := none } : NewVersionRecord).compositeSchemaSDL = none →
      ({ valid := false, compositeSchemaSDL := none, supergraphSDL := none,
         schemaCompositionErrors := some [{ message := "boom", source := ErrSource.composition }],
         tags := none } : NewVersionRecord).schemaCompositionErrors ≠ none) ∧
    ({ valid := false, compositeSchemaSDL := none, supergraphSDL := none,
       schemaCompositionErrors := some [{ message := "boom", source := ErrSource.composition }],
       tags := none } : NewVersionRecord).valid =
      ({ composable := false, initial := true, changes := none, messages := [],
         breakingChanges := none,
         compositionErrors := some [{ message := "boom", source := ErrSource.composition }],
         supergraph := none, fullSchemaSdl := none, tags := none } : PublishState).composable ∧
    (({ composable := false, initial := true, changes := none, messages := [],
        breakingChanges := none,
        compositionErrors := some [{ message := "boom", source := ErrSource.composition }],
        supergraph := none, fullSchemaSdl := none, tags := none } : PublishState).composable = true →
      ∃ sdl, ({ composable := false, initial := true, changes := none, messages := [],
                breakingChanges := none,
                compositionErrors := some [{ message := "boom", source := ErrSource.composition }],
                supergraph := none, fullSchemaSdl := none, tags := none } : PublishState).fullSchemaSdl
          = some sdl ∧ sdl ≠ "") :=
  persistPublish_invariants.1
    { composable := false, initial := true, changes := none, messages := [],
      breakingChanges := none,
      compositionErrors := some [{ message := "boom", source := ErrSource.composition }],
      supergraph := none, fullSchemaSdl := none, tags := none }
    { valid := false, compositeSchemaSDL := none, supergraphSDL := none,
      schemaCompositionErrors := some [{ message := "boom", source := ErrSource.composition }],
      tags := none }
    (by rfl)

/-- C7: a composite publish whose service-name and URL checks pass and whose
incoming schema set has the latest version's checksum concludes
`Ignore{NoChanges}` — for every metadata/composition/diff outcome, so those
stages cannot influence the conclusion — and the publisher's handling of an
`Ignore` conclusion creates no schema version. -/
theorem publish_unchanged_checksum_ignores (env : Env) (schemas : List SubgraphDefinition)
    (latest : LatestVersion) (compareToLatest : Bool)
    (serviceNameCheck : CheckResult Unit String) (serviceUrlCheck : CheckResult UrlCheckOk String)
    (metadataCheck : CheckResult MetaStatus String)
    (compositionCheck : CompositionCheckResult) (diffCheck : SchemaDiffResult)
    (hne : latest.schemas ≠ [])
    (hsum : env.createChecksumFromSchemas schemas = env.createChecksumFromSchemas latest.schemas)
    (hname : serviceNameCheck.isFailed = false)
    (hurl : serviceUrlCheck.isFailed = false) :
    CompositeModel.publish (some latest) compareToLatest serviceNameCheck serviceUrlCheck
        (RegistryChecks.checksum env schemas (some latest)) metadataCheck
        compositionCheck diffCheck = SchemaPublishResult.ignore ∧
    SchemaPublisher.handlePublishResult SchemaPublishResult.ignore =
      Except.ok (PublishResponse.success false true [], none) := by
  have hlen : ¬ latest.schemas.length = 0 := by
    simpa [List.length_eq_zero] using hne
  have hchk : RegistryChecks.checksum env schemas (some latest) = ChecksumResult.unchanged := by
    simp [RegistryChecks.checksum, hlen, hsum]
  constructor
  · simp [CompositeModel.publish, hname, hurl, hchk]
  · rfl

theorem publish_unchanged_checksum_ignores_witness :
    CompositeModel.publish
        (some { isComposable := true, sdl := some "type Query { me: String }",
                schemas := [{ service_name := "users", service_url := some "https://u" }] })
        true (CheckResult.completed ()) (CheckResult.completed UrlCheckOk.unchanged)
        (RegistryChecks.checksum
          { createChecksumFromSchemas := fun _ => "abc", schemaParses := fun _ => true,
            inspectorDiff := fun _ _ => [] }
          [{ service_name := "users", service_url := some "https://u" }]
          (some { isComposable := true, sdl := some "type Query { me: String }",
                  schemas := [{ service_name := "users", service_url := some "https://u" }] }))
        (CheckResult.completed MetaStatus.unchanged)
        (CompositionCheckResult.completed "type Query { me: String }" none none none)
        SchemaDiffResult.skipped = SchemaPublishResult.ignore ∧
    SchemaPublisher.handlePublishResult SchemaPublishResult.ignore =
      Except.ok (PublishResponse.success false true [], none) :=
  publish_unchanged_checksum_ignores
    { createChecksumFromSchemas := fun _ => "abc", schemaParses := fun _ => true,
      inspectorDiff := fun _ _ => [] }
    [{ service_name := "users", service_url := some "https://u" }]
    { isComposable := true, sdl := some "type Query { me: String }",
      schemas := [{ service_name := "users", service_url := some "https://u" }] }
    true (CheckResult.completed ()) (CheckResult.completed UrlCheckOk.unchanged)
    (CheckResult.completed MetaStatus.unchanged)
    (CompositionCheckResult.completed "type Query { me: String }" none none none)
    SchemaDiffResult.skipped (by decide) rfl rfl rfl

/-- C1 (code bug): with composition, diff and policy all successful and two
contract checks — contract A's diff failing, contract B clean — the check
conclusion code of `CompositeModel.check` takes the Success branch (its guard
requires *all* contract checks to be unsuccessful, via
`!contractChecks.some(isContractChecksSuccessful)`) and then throws
`'This should not happen.'` while mapping contract A, instead of concluding
`Failure` with A `isSuccessful:false` and B `isSuccessful:true` as the claim
(and the source's own comment) state. -/
theorem checkConclude_contract_isolation_throws :
    CompositeModel.checkConclude
      (CompositionCheckResult.completed "type Query { a: String }" none none
        (some [ContractCompositionResult.completed "type Query { a: String }" none,
               ContractCompositionResult.completed "type Query { a: String }" none]))
      (SchemaDiffResult.completed { breaking := none, safe := none, all := none })
      (PolicyCheckResult.completed none)
      (some
        [{ contractId := "contract-a"
           compositionCheck := ContractCompositionResult.completed "type Query { a: String }" none
           diffCheck := SchemaDiffResult.failed
             { breaking := some [{ id := "FIELD_REMOVED.Query.name", type := "FIELD_REMOVED",
                                   criticality := Criticality.breaking,
                                   isSafeBasedOnUsage := false }]
               safe := none
               all := some [{ id := "FIELD_REMOVED.Query.name", type := "FIELD_REMOVED",
                              criticality := Criticality.breaking,
                              isSafeBasedOnUsage := false }] } },
         { contractId := "contract-b"
           compositionCheck := ContractCompositionResult.completed "type Query { a: String }" none
           diffCheck := SchemaDiffResult.completed { breaking := none, safe := none, all := none } }]) =
      Except.error "This should not happen." := by
  rfl

/-- C6: `detectUrlChanges` emits exactly one `REGISTRY_SERVICE_URL_CHANGED`
change — with meta `{serviceName, old URL, new URL}` and
`isSafeBasedOnUsage = false` — for every service name appearing in both the
before and after subgraph sets with differing URLs, and no change for any
other service; the result does not depend on the ordering of the before set.
(Subgraph sets are keyed by service name, hence the `Nodup` hypotheses; the
no-empty-string-URL hypotheses keep the source's unreachable
`"This shouldn't happen."` throw unreachable.) -/
theorem detectUrlChanges_spec :
    (∀ (before after : List SubgraphDefinition),
      (∀ s ∈ before, s.service_url ≠ some "") →
      (∀ s ∈ after, s.service_url ≠ some "") →
      detectUrlChanges before after = Except.ok (after.filterMap (urlChangeProj before)) ∧
      (∀ c ∈ after.filterMap (urlChangeProj before),
        c.type = "REGISTRY_SERVICE_URL_CHANGED" ∧ c.isSafeBasedOnUsage = false ∧
        ∃ a ∈ after, ∃ b ∈ before, b.service_name = a.service_name ∧
          b.service_url ≠ a.service_url ∧
          c.meta = some ⟨a.service_name, b.service_url, a.service_url⟩)) ∧
    (∀ (before after : List SubgraphDefinition) (n : String),
      (before.map SubgraphDefinition.service_name).Nodup →
      (after.map SubgraphDefinition.service_name).Nodup →
      (after.filterMap (urlChangeProj before)).countP
          (fun c => decide (changeServiceName c = some n)) =
        (if ∃ a ∈ after, a.service_name = n ∧ ∃ b ∈ before, b.service_name = n ∧
            b.service_url ≠ a.service_url then 1 else 0)) ∧
    (∀ (before₁ before₂ after : List SubgraphDefinition),
      before₁.Perm before₂ →
      (before₁.map SubgraphDefinition.service_name).Nodup →
      (∀ s ∈ before₁, s.service_url ≠ some "") →
      (∀ s ∈ after, s.service_url ≠ some "") →
      detectUrlChanges before₁ after = detectUrlChanges before₂ after) := by
  refine ⟨?_, ?_, ?_⟩
  · intro before after hBu hAu
    refine ⟨detectUrlChanges_ok before after hBu hAu, ?_⟩
    intro c hc
    obtain ⟨a, ha, hproj⟩ := List.mem_filterMap.mp hc
    unfold urlChangeProj urlMetaProj at hproj
    cases hm : mapGetLast before a.service_name with
    | none =>
      rw [hm] at hproj
      cases hproj
    | some b =>
      rw [hm] at hproj
      dsimp only at hproj
      obtain ⟨hb, hname⟩ := mapGetLast_eq_some before _ b hm
      by_cases hne : b.service_url = a.service_url
      · rw [if_neg (by simpa using hne)] at hproj
        cases hproj
      · rw [if_pos (by simpa using hne)] at hproj
        simp only [Option.map_some', Option.some.injEq] at hproj
        subst hproj
        exact ⟨rfl, rfl, a, ha, b, hb, hname, hne, rfl⟩
  · intro before after n hBn hAn
    rw [countP_filterMap_keyed SubgraphDefinition.service_name changeServiceName
      (urlChangeProj before) ?hf after hAn n]
    case hf =>
      intro a c hc
      unfold urlChangeProj at hc
      cases hm : urlMetaProj before a with
      | none =>
        rw [hm] at hc
        cases hc
      | some m =>
        rw [hm] at hc
        simp only [Option.map_some', Option.some.injEq] at hc
        subst hc
        have hmn : m.serviceName = a.service_name := by
          unfold urlMetaProj at hm
          cases hg : mapGetLast before a.service_name with
          | none =>
            rw [hg] at hm
            cases hm
          | some b =>
            rw [hg] at hm
            dsimp only at hm
            by_cases hne : b.service_url = a.service_url
            · rw [if_neg (by simpa using hne)] at hm
              cases hm
            · rw [if_pos (by simpa using hne)] at hm
              cases hm
              rfl
        simp [changeServiceName, hiveSchemaChangeModelParse, hmn]
    refine if_congr ?_ rfl rfl
    constructor
    · rintro ⟨a, ha, hka, hsome⟩
      obtain ⟨b, hb, hbname, hbne⟩ := (urlChangeProj_isSome_iff before a hBn).mp hsome
      exact ⟨a, ha, hka, b, hb, by rw [hbname, hka], hbne⟩
    · rintro ⟨a, ha, hka, b, hb, hbname, hbne⟩
      refine ⟨a, ha, hka, (urlChangeProj_isSome_iff before a hBn).mpr ⟨b, hb, ?_, hbne⟩⟩
      rw [hbname, hka]
  · intro before₁ before₂ after hperm hBn hBu hAu
    have hBu₂ : ∀ s ∈ before₂, s.service_url ≠ some "" :=
      fun s hs => hBu s (hperm.mem_iff.mpr hs)
    rw [detectUrlChanges_ok before₁ after hBu hAu,
      detectUrlChanges_ok before₂ after hBu₂ hAu]
    have hfun : urlChangeProj before₁ = urlChangeProj before₂ := by
      funext a
      unfold urlChangeProj urlMetaProj
      rw [mapGetLast_perm before₁ before₂ hperm hBn]
    rw [hfun]

theorem detectUrlChanges_spec_witness :
    detectUrlChanges [{ service_name := "users", service_url := some "https://a" }]
        [{ service_name := "users", service_url := some "https://b" }] =
      Except.ok
        ([{ service_name := "users", service_url := some "https://b" }].filterMap
          (urlChangeProj [{ service_name := "users", service_url := some "https://a" }])) ∧
    detectUrlChanges
        [{ service_name := "users", service_url := some "https://a" },
         { service_name := "posts", service_url := some "https://p" }]
        [{ service_name := "users", service_url := some "https://b" }] =
      detectUrlChanges
        [{ service_name := "posts", service_url := some "https://p" },
         { service_name := "users", service_url := some "https://a" }]
        [{ service_name := "users", service_url := some "https://b" }] := by
  constructor
  · exact (detectUrlChanges_spec.1
      [{ service_name := "users", service_url := some "https://a" }]
      [{ service_name := "users", service_url := some "https://b" }]
      (by decide) (by decide)).1
  · exact detectUrlChanges_spec.2.2
      [{ service_name := "users", service_url := some "https://a" },
       { service_name := "posts", service_url := some "https://p" }]
      [{ service_name := "posts", service_url := some "https://p" },
       { service_name := "users", service_url := some "https://a" }]
      [{ service_name := "users", service_url := some "https://b" }]
      (by decide) (by decide) (by decide) (by decide)

/-- C5: the diff primitive skips when either SDL is absent or unparseable;
with both SDLs present and parseable it fails exactly when some detected
change is breaking, not usage-safe and not approved; and its breaking output
list is the image of the detected changes under `diffBreakProj`, which
replaces an approved breaking change by the stored approval snapshot — so an
approved change appears in the output (with its approver metadata) and never
causes failure. -/
theorem diff_skip_failure_and_approval_spec :
    (∀ (env : Env) (args : DiffArgs), args.existingSdl = none ∨ args.incomingSdl = none →
      RegistryChecks.diff env args = Except.ok SchemaDiffResult.skipped) ∧
    (∀ (env : Env) (args : DiffArgs) (e i : String),
      args.existingSdl = some e → args.incomingSdl = some i →
      ¬ (env.schemaParses e = true ∧ env.schemaParses i = true) →
      RegistryChecks.diff env args = Except.ok SchemaDiffResult.skipped) ∧
    (∀ (env : Env) (args : DiffArgs) (e i : String) (L : List SchemaChange),
      args.existingSdl = some e → args.incomingSdl = some i →
      env.schemaParses e = true → env.schemaParses i = true →
      RegistryChecks.effectiveChanges env args e i = Except.ok L →
      ((∃ r, RegistryChecks.diff env args = Except.ok (SchemaDiffResult.failed r)) ↔
        ∃ c ∈ L, c.criticality = Criticality.breaking ∧ c.isSafeBasedOnUsage = false ∧
          approvedGet args.approvedChanges c.id = none) ∧
      (∃ record, (RegistryChecks.diff env args = Except.ok (SchemaDiffResult.failed record) ∨
          RegistryChecks.diff env args = Except.ok (SchemaDiffResult.completed record)) ∧
        record.breaking.getD [] = L.filterMap (diffBreakProj args.approvedChanges) ∧
        (∀ c ∈ L, ∀ a, c.isSafeBasedOnUsage = false → c.criticality = Criticality.breaking →
          approvedGet args.approvedChanges c.id = some a →
            a ∈ record.breaking.getD []))) := by
  refine ⟨?_, ?_, ?_⟩
  · intro env args h
    rcases h with h | h
    · cases hy : args.incomingSdl <;>
        simp [RegistryChecks.diff, h, hy, pure, Except.pure]
    · cases hx : args.existingSdl <;>
        simp [RegistryChecks.diff, h, hx, pure, Except.pure]
  · intro env args e i he hi h
    simp [RegistryChecks.diff, he, hi, h, pure, Except.pure]
  · intro env args e i L he hi hpe hpi hL
    have hd := RegistryChecks.diff_eq_finalize env args e i L he hi hpe hpi hL
    have hmem : ∀ c : SchemaChange, diffFailPred args.approvedChanges c = true ↔
        (c.criticality = Criticality.breaking ∧ c.isSafeBasedOnUsage = false ∧
          approvedGet args.approvedChanges c.id = none) := by
      intro c
      simp [diffFailPred, Bool.and_eq_true, Option.isNone_iff_eq_none, and_comm,
        Bool.not_eq_true']
      tauto
    cases hA : L.any (diffFailPred args.approvedChanges) with
    | true =>
      rw [hA, diffFinalize_true] at hd
      constructor
      · constructor
        · intro _
          obtain ⟨c, hc, hp⟩ := List.any_eq_true.mp hA
          exact ⟨c, hc, (hmem c).mp hp⟩
        · intro _
          exact ⟨_, hd⟩
      · refine ⟨_, Or.inl hd, ?_, ?_⟩
        · simp
        · intro c hc a hsafe hcrit happ
          simp only [Option.getD_some]
          refine List.mem_filterMap.mpr ⟨c, hc, ?_⟩
          simp [diffBreakProj, hsafe, hcrit, happ]
    | false =>
      rw [hA, diffFinalize_false] at hd
      constructor
      · constructor
        · intro ⟨r, hr⟩
          rw [hd] at hr
          exact SchemaDiffResult.noConfusion (Except.ok.inj hr)
        · intro ⟨c, hc, hp⟩
          exact absurd ((hmem c).mpr hp) (by simp [List.any_eq_false.mp hA c hc])
      · refine ⟨_, Or.inr hd, ?_, ?_⟩
        · by_cases hl : (L.filterMap (diffBreakProj args.approvedChanges)).length = 0
          · simp [hl, List.length_eq_zero.mp hl]
          · simp [hl]
        · intro c hc a hsafe hcrit happ
          have hproj : diffBreakProj args.approvedChanges c = some a := by
            simp [diffBreakProj, hsafe, hcrit, happ]
          have hmemf : a ∈ L.filterMap (diffBreakProj args.approvedChanges) :=
            List.mem_filterMap.mpr ⟨c, hc, hproj⟩
          by_cases hl : (L.filterMap (diffBreakProj args.approvedChanges)).length = 0
          · rw [List.length_eq_zero.mp hl] at hmemf
            cases hmemf
          · simpa [hl] using hmemf

theorem diff_skip_failure_and_approval_witness :
    RegistryChecks.diff
        { createChecksumFromSchemas := fun _ => "h", schemaParses := fun _ => true,
          inspectorDiff := fun _ _ => [] }
        { existingSdl := none, incomingSdl := some "type Query { me: String }",
          includeUrlChanges := none, filterOutFederationChanges := false,
          approvedChanges := none } = Except.ok SchemaDiffResult.skipped ∧
    ((∃ r, RegistryChecks.diff
        { createChecksumFromSchemas := fun _ => "h", schemaParses := fun _ => true,
          inspectorDiff := fun _ _ =>
            [{ id := "FIELD_REMOVED.Query.me", type := "FIELD_REMOVED",
               criticality := Criticality.breaking, isSafeBasedOnUsage := false }] }
        { existingSdl := some "type Query { me: String }", incomingSdl := some "type Query { you: String }",
          includeUrlChanges := none, filterOutFederationChanges := false,
          approvedChanges := none } = Except.ok (SchemaDiffResult.failed r)) ↔
      ∃ c ∈ [{ id := "FIELD_REMOVED.Query.me", type := "FIELD_REMOVED",
               criticality := Criticality.breaking, isSafeBasedOnUsage := false : SchemaChange }],
        c.criticality = Criticality.breaking ∧ c.isSafeBasedOnUsage = false ∧
          approvedGet none c.id = none) := by
  constructor
  · exact diff_skip_failure_and_approval_spec.1
      { createChecksumFromSchemas := fun _ => "h", schemaParses := fun _ => true,
        inspectorDiff := fun _ _ => [] }
      { existingSdl := none, incomingSdl := some "type Query { me: String }",
        includeUrlChanges := none, filterOutFederationChanges := false,
        approvedChanges := none } (Or.inl rfl)
  · exact (diff_skip_failure_and_approval_spec.2.2
      { createChecksumFromSchemas := fun _ => "h", schemaParses := fun _ => true,
        inspectorDiff := fun _ _ =>
          [{ id := "FIELD_REMOVED.Query.me", type := "FIELD_REMOVED",
             criticality := Criticality.breaking, isSafeBasedOnUsage := false }] }
      { existingSdl := some "type Query { me: String }", incomingSdl := some "type Query { you: String }",
        includeUrlChanges := none, filterOutFederationChanges := false,
        approvedChanges := none }
      "type Query { me: String }" "type Query { you: String }"
      [{ id := "FIELD_REMOVED.Query.me", type := "FIELD_REMOVED",
         criticality := Criticality.breaking, isSafeBasedOnUsage := false }]
      rfl rfl rfl rfl rfl).1

/-- C2 (counterexample): the orchestrator returns a non-null SDL together with
errors that are all of source `composition` (legacy Federation 1).  Contrary
to the claim, with `compareToLatest` active the publish conclusion is
`Publish` — not `Reject{CompositionFailure}`, whose guard only fires on
graphql-source errors — and the publish state carries `fullSchemaSdl = null`
(the returned SDL only survives inside the composition check's failure
reason). -/
theorem publish_composition_source_errors_counterexample :
    RegistryChecks.composition
        { sdl := some "type Query { me: String }", supergraph := none, tags := none,
          errors := some [{ message := "Service users is unreachable",
                            source := ErrSource.composition }],
          contracts := none } =
      Except.ok (CompositionCheckResult.failed
        [{ message := "Service users is unreachable", source := ErrSource.composition }]
        (some "type Query { me: String }")) ∧
    CompositeModel.publish
        (some { isComposable := true, sdl := some "type Query { me: Int }",
                schemas := [{ service_name := "users", service_url := some "https://u" }] })
        true (CheckResult.completed ()) (CheckResult.completed UrlCheckOk.unchanged)
        ChecksumResult.modified (CheckResult.completed MetaStatus.unchanged)
        (CompositionCheckResult.failed
          [{ message := "Service users is unreachable", source := ErrSource.composition }]
          (some "type Query { me: String }"))
        SchemaDiffResult.skipped =
      SchemaPublishResult.publish
        { composable := false, initial := false, changes := none, messages := [],
          breakingChanges := none,
          compositionErrors := some [{ message := "Service users is unreachable",
                                       source := ErrSource.composition }],
          supergraph := none, fullSchemaSdl := none, tags := none } := by
  constructor
  · rfl
  · rfl

/-- C2 (amended): when composition fails with a non-null SDL and errors that
are all of source `composition`, the publish conclusion is `Publish` with
`composable:false` regardless of `compareToLatest`, and the publish state's
`fullSchemaSdl` is null — the returned SDL is kept only in the composition
check's failure reason. -/
theorem publish_composition_source_errors_amended
    (latest : Option LatestVersion) (compareToLatest : Bool)
    (serviceNameCheck : CheckResult Unit String) (serviceUrlCheck : CheckResult UrlCheckOk String)
    (checksumCheck : ChecksumResult) (metadataCheck : CheckResult MetaStatus String)
    (errors : List CompositionError) (sdl : String) (diffCheck : SchemaDiffResult)
    (hname : serviceNameCheck.isFailed = false)
    (hurl : serviceUrlCheck.isFailed = false)
    (hchk : checksumCheck ≠ ChecksumResult.unchanged)
    (hmeta : metadataCheck.isFailed = false)
    (hgraphql : errors.filter isGraphQLValidationError = []) :
    ∃ state, CompositeModel.publish latest compareToLatest serviceNameCheck serviceUrlCheck
        checksumCheck metadataCheck (CompositionCheckResult.failed errors (some sdl)) diffCheck =
        SchemaPublishResult.publish state ∧
      state.composable = false ∧
      state.fullSchemaSdl = none ∧
      state.compositionErrors = some errors := by
  have hcond : ¬ ((CompositionCheckResult.failed errors (some sdl)).isFailed = true ∧
      (CompositionCheckResult.failed errors (some sdl)).graphqlErrors ≠ [] ∧
      compareToLatest = true) := by
    intro h
    exact h.2.1 (by simpa [CompositionCheckResult.graphqlErrors] using hgraphql)
  exact ⟨_, CompositeModel.publish_eq_publish latest compareToLatest serviceNameCheck
    serviceUrlCheck checksumCheck metadataCheck
    (CompositionCheckResult.failed errors (some sdl)) diffCheck
    hname hurl hchk hmeta hcond, rfl, rfl, rfl⟩

theorem publish_composition_source_errors_amended_witness :
    ∃ state, CompositeModel.publish (none : Option LatestVersion) true
        (CheckResult.completed ()) (CheckResult.completed UrlCheckOk.unchanged)
        ChecksumResult.initial (CheckResult.completed MetaStatus.unchanged)
        (CompositionCheckResult.failed
          [{ message := "Service users is unreachable", source := ErrSource.composition }]
          (some "type Query { me: String }"))
        SchemaDiffResult.skipped =
        SchemaPublishResult.publish state ∧
      state.composable = false ∧
      state.fullSchemaSdl = none ∧
      state.compositionErrors =
        some [{ message := "Service users is unreachable", source := ErrSource.composition }] :=
  publish_composition_source_errors_amended none true (CheckResult.completed ())
    (CheckResult.completed UrlCheckOk.unchanged) ChecksumResult.initial
    (CheckResult.completed MetaStatus.unchanged)
    [{ message := "Service users is unreachable", source := ErrSource.composition }]
    "type Query { me: String }" SchemaDiffResult.skipped rfl rfl (by decide) rfl (by decide)

/-- C4: once the service-name, service-url, checksum and metadata checks have
passed, the publish conclusion is `Reject{CompositionFailure}` precisely when
the composition check failed with at least one graphql-source error and
`compareToLatest` is active; in every other case the conclusion is `Publish`
with `state.composable` true exactly when the composition check completed. -/
theorem publish_reject_iff_graphql_and_compareToLatest
    (latest : Option LatestVersion) (compareToLatest : Bool)
    (serviceNameCheck : CheckResult Unit String) (serviceUrlCheck : CheckResult UrlCheckOk String)
    (checksumCheck : ChecksumResult) (metadataCheck : CheckResult MetaStatus String)
    (compositionCheck : CompositionCheckResult) (diffCheck : SchemaDiffResult)
    (hname : serviceNameCheck.isFailed = false)
    (hurl : serviceUrlCheck.isFailed = false)
    (hchk : checksumCheck ≠ ChecksumResult.unchanged)
    (hmeta : metadataCheck.isFailed = false) :
    ((∃ gqlErrors, CompositeModel.publish latest compareToLatest serviceNameCheck serviceUrlCheck
          checksumCheck metadataCheck compositionCheck diffCheck =
        SchemaPublishResult.reject [PublishFailureReason.compositionFailure gqlErrors]) ↔
      (compositionCheck.isFailed = true ∧ compositionCheck.graphqlErrors ≠ [] ∧
        compareToLatest = true)) ∧
    (¬ (compositionCheck.isFailed = true ∧ compositionCheck.graphqlErrors ≠ [] ∧
        compareToLatest = true) →
      ∃ state, CompositeModel.publish latest compareToLatest serviceNameCheck serviceUrlCheck
          checksumCheck metadataCheck compositionCheck diffCheck =
        SchemaPublishResult.publish state ∧
        state.composable = compositionCheck.isCompleted) := by
  by_cases hcond : compositionCheck.isFailed = true ∧ compositionCheck.graphqlErrors ≠ [] ∧
      compareToLatest = true
  · refine ⟨⟨fun _ => hcond, fun _ => ⟨compositionCheck.graphqlErrors, ?_⟩⟩,
      fun hn => absurd hcond hn⟩
    exact CompositeModel.publish_eq_reject_graphql latest compareToLatest serviceNameCheck
      serviceUrlCheck checksumCheck metadataCheck compositionCheck diffCheck
      hname hurl hchk hmeta hcond.1 hcond.2.1 hcond.2.2
  · have hpub := CompositeModel.publish_eq_publish latest compareToLatest serviceNameCheck
      serviceUrlCheck checksumCheck metadataCheck compositionCheck diffCheck
      hname hurl hchk hmeta hcond
    refine ⟨⟨fun h => ?_, fun h => absurd h hcond⟩, fun _ => ⟨_, hpub, rfl⟩⟩
    obtain ⟨gqlErrors, heq⟩ := h
    rw [hpub] at heq
    exact SchemaPublishResult.noConfusion heq

theorem publish_reject_iff_graphql_witness :
    ((∃ gqlErrors, CompositeModel.publish (none : Option LatestVersion) true
          (CheckResult.completed ()) (CheckResult.completed UrlCheckOk.unchanged)
          ChecksumResult.initial (CheckResult.completed MetaStatus.unchanged)
          (CompositionCheckResult.failed
            [{ message := "Unknown type User", source := ErrSource.graphql }] none)
          SchemaDiffResult.skipped =
        SchemaPublishResult.reject [PublishFailureReason.compositionFailure gqlErrors]) ↔
      ((CompositionCheckResult.failed
          [{ message := "Unknown type User", source := ErrSource.graphql }] none).isFailed = true ∧
        (CompositionCheckResult.failed
          [{ message := "Unknown type User", source := ErrSource.graphql }] none).graphqlErrors ≠ [] ∧
        true = true)) ∧
    (¬ ((CompositionCheckResult.failed
          [{ message := "Unknown type User", source := ErrSource.graphql }] none).isFailed = true ∧
        (CompositionCheckResult.failed
          [{ message := "Unknown type User", source := ErrSource.graphql }] none).graphqlErrors ≠ [] ∧
        true = true) →
      ∃ state, CompositeModel.publish (none : Option LatestVersion) true
          (CheckResult.completed ()) (CheckResult.completed UrlCheckOk.unchanged)
          ChecksumResult.initial (CheckResult.completed MetaStatus.unchanged)
          (CompositionCheckResult.failed
            [{ message := "Unknown type User", source := ErrSource.graphql }] none)
          SchemaDiffResult.skipped =
        SchemaPublishResult.publish state ∧
        state.composable = (CompositionCheckResult.failed
          [{ message := "Unknown type User", source := ErrSource.graphql }] none).isCompleted) :=
  publish_reject_iff_graphql_and_compareToLatest none true (CheckResult.completed ())
    (CheckResult.completed UrlCheckOk.unchanged) ChecksumResult.initial
    (CheckResult.completed MetaStatus.unchanged)
    (CompositionCheckResult.failed
      [{ message := "Unknown type User", source := ErrSource.graphql }] none)
    SchemaDiffResult.skipped rfl rfl (by decide) rfl

end Hive
